import Mathlib

/-!
Verification of the Smart-Bus position / ETA engine.

The definitions below are a shallow embedding of the Python source:
`api/mapbox.py` (distance provider, fallback estimator, position resolver),
`api/views_buses.py` (location-update handler, passed-stop policy, trip
lifecycle), and `api/views_etas.py` (batch ETA calculator and arrival
classification).  Python floats are modelled as exact rationals where the
code only compares and adds them, and as real numbers where trigonometry
is involved; Python's `round` (banker's rounding) is modelled by `pyRound`.
-/

namespace SmartBus

/-- Python's `round(x)`: round half to even, as used on floats by the source.
Defined on any linear ordered field with a floor so the same function serves
the rational and the real embeddings. -/
def pyRound {α : Type} [LinearOrderedField α] [FloorRing α] (x : α) : ℤ :=
  if Int.floor x % 2 = 0 then Int.ceil (x - 1/2) else Int.floor (x + 1/2)

/-- Python's `round(x, 1)`: round to one decimal digit, half to even. -/
def pyRound1 {α : Type} [LinearOrderedField α] [FloorRing α] (x : α) : α :=
  ((pyRound (10 * x) : ℤ) : α) / 10

/-! ## Position resolver (`api/mapbox.py`, `get_bus_position_on_route`)

The Python function receives the bus fix and the route stops, asks the
distance provider (MapBox, falling back to buffered haversine) for the
distance and ETA from the bus to every stop, and then decides the bus's
position from that per-stop list alone.  The embedding abstracts the
provider loop (lines 310-333 of `mapbox.py`) into the input: a `StopDist`
carries the `sequence`, `distance` and `eta` entries the loop builds for
one stop.  The decision logic (lines 296-304 and 335-411) is translated
verbatim. -/

/-- One entry of the `stop_distances` list built by
`get_bus_position_on_route`: the stop's route sequence number and the
provider-supplied distance (meters) and ETA (minutes) from the bus. -/
structure StopDist where
  sequence : Nat
  distance : ℚ
  eta : ℚ
deriving DecidableEq, Repr

/-- The dict returned by `get_bus_position_on_route`. -/
structure PositionResult where
  last_passed_stop : Nat
  next_stop : Nat
  is_at_stop : Bool
  current_stop_sequence : Nat
  distance_to_next : Option ℚ
  eta_to_next : Option ℚ
deriving DecidableEq, Repr

/-- Stable insertion of a stop into a list sorted by `sequence`
(`sorted(route_stops, key=lambda x: x['sequence'])`). -/
def insertBySeq (s : StopDist) : List StopDist → List StopDist
  | [] => [s]
  | t :: ts => if s.sequence < t.sequence then s :: t :: ts else t :: insertBySeq s ts

/-- `sorted(route_stops, key=lambda x: x['sequence'])`. -/
def sortBySeq : List StopDist → List StopDist
  | [] => []
  | s :: ss => insertBySeq s (sortBySeq ss)

/-- `min(stop_distances, key=lambda x: x['distance'])`: Python's `min`
keeps the first element among ties, so a later element replaces the
accumulator only when strictly smaller. -/
def pyMinByDist (s : StopDist) (ss : List StopDist) : StopDist :=
  ss.foldl (fun acc t => if t.distance < acc.distance then t else acc) s

/-- `next(i for i, s in enumerate(stop_distances) if s['sequence'] == nearest['sequence'])`. -/
def idxOfSeq (stops : List StopDist) (seq : Nat) : Nat :=
  stops.findIdx (fun t => t.sequence == seq)

/-- The default dict returned for an empty stop list (`mapbox.py` lines 296-304). -/
def emptyPositionResult : PositionResult :=
  ⟨0, 1, false, 1, none, none⟩

/-- `get_bus_position_on_route` of `api/mapbox.py`, lines 296-411, with the
per-stop provider results supplied as the `route_stops` list.  The function
sorts by sequence, takes the nearest stop, and branches exactly as the
source: at-stop within 150 m, else nearest-is-first, nearest-is-last, or
the two between-stops cases. -/
def get_bus_position_on_route (route_stops : List StopDist) : PositionResult :=
  match sortBySeq route_stops with
  | [] => emptyPositionResult
  | s :: ss =>
    let stops := s :: ss
    let nearest := pyMinByDist s ss
    if nearest.distance ≤ 150 then
      { last_passed_stop := nearest.sequence
        next_stop := if nearest.sequence < stops.length then nearest.sequence + 1 else nearest.sequence
        is_at_stop := true
        current_stop_sequence := nearest.sequence
        distance_to_next := some 0
        eta_to_next := some 0 }
    else
      let i := idxOfSeq stops nearest.sequence
      if i = 0 then
        { last_passed_stop := 0
          next_stop := nearest.sequence
          is_at_stop := false
          current_stop_sequence := nearest.sequence
          distance_to_next := some ((pyRound nearest.distance : ℤ) : ℚ)
          eta_to_next := some (pyRound1 nearest.eta) }
      else
        let prev := stops.getD (i - 1) s
        if i = stops.length - 1 then
          { last_passed_stop := prev.sequence
            next_stop := nearest.sequence
            is_at_stop := false
            current_stop_sequence := nearest.sequence
            distance_to_next := some ((pyRound nearest.distance : ℤ) : ℚ)
            eta_to_next := some (pyRound1 nearest.eta) }
        else
          let nxt := stops.getD (i + 1) s
          if nearest.distance < prev.distance then
            { last_passed_stop := prev.sequence
              next_stop := nearest.sequence
              is_at_stop := false
              current_stop_sequence := nearest.sequence
              distance_to_next := some ((pyRound nearest.distance : ℤ) : ℚ)
              eta_to_next := some (pyRound1 nearest.eta) }
          else
            { last_passed_stop := nearest.sequence
              next_stop := nxt.sequence
              is_at_stop := false
              current_stop_sequence := nxt.sequence
              distance_to_next := some ((pyRound nxt.distance : ℤ) : ℚ)
              eta_to_next := some (pyRound1 nxt.eta) }

/-! ## Passed-stop policy and trip lifecycle (`api/views_buses.py`)

State kept by the persistence layer for one bus and its assigned route:
the bus lifecycle status (`buses.status`), the latest location row
(`bus_locations`: coordinates, speed, heading and the
`current_stop_sequence` pointer, `none` modelling SQL NULL), and the
route's `passed` flags (`route_stops.passed`, listed by sequence:
index `i` holds the flag of sequence `i + 1`). -/

inductive BusStatus where
  | active
  | inactive
  | maintenance
deriving DecidableEq, Repr

structure SysState where
  busStatus : BusStatus
  pointer : Option Nat
  flags : List Bool
  lat : ℚ
  lon : ℚ
  speed : ℚ
  heading : ℚ
deriving DecidableEq, Repr

/-- One inbound GPS fix (`request.data` of `BusLocationView.post`). -/
structure Fix where
  lat : ℚ
  lon : ℚ
  speed : ℚ
  heading : ℚ
deriving DecidableEq, Repr

/-- `SELECT passed FROM route_stops WHERE route_id = .. AND sequence_number = %s`:
`none` when no row has that sequence number (sequences are 1-based). -/
def seqFlag (flags : List Bool) (seq : Nat) : Option Bool :=
  if seq = 0 then none else flags[seq - 1]?

/-- `UPDATE route_stops SET passed = TRUE WHERE .. sequence_number = %s`. -/
def seqSetFlag (flags : List Bool) (seq : Nat) : List Bool :=
  if seq = 0 then flags else flags.set (seq - 1) true

/-- The ETA-based marking block of `BusLocationView.post`
(`views_buses.py` lines 514-542): when the resolver's `eta_to_next` exists
and is below `PASSED_ETA_THRESHOLD = 1.0` minute, read the `passed` flag of
the stop at `current_stop_sequence` and set it to true only if it is
currently false. -/
def markPassedStep (flags : List Bool) (seq : Nat) (eta : Option ℚ) : List Bool :=
  match eta with
  | none => flags
  | some e =>
    if e < 1 then
      if seqFlag flags seq = some false then seqSetFlag flags seq else flags
    else flags

/-- `speed = min(max(float(..), 0), 999.99)` (`views_buses.py` line 466). -/
def clampSpeed (s : ℚ) : ℚ := min (max s 0) (99999/100)

/-- `heading = min(max(float(..), 0), 360)` (`views_buses.py` line 467). -/
def clampHeading (h : ℚ) : ℚ := min (max h 0) 360

/-- The state effect of `BusLocationView.post` downstream of the resolver
call (`views_buses.py` lines 469-560): resolve the position from the
per-stop provider data, apply the passed-stop marking, and upsert the
location row with the new pointer.  When the bus has no route or the route
has no stops (`dists = []`), the handler writes the row with
`current_stop_sequence = NULL` and touches no flag.  The handler never
reads `busStatus`. -/
def locUpdate (fix : Fix) (dists : List StopDist) (s : SysState) : SysState :=
  if dists = [] then
    { s with
      pointer := none
      lat := fix.lat
      lon := fix.lon
      speed := clampSpeed fix.speed
      heading := clampHeading fix.heading }
  else
    let pos := get_bus_position_on_route dists
    { s with
      pointer := some pos.current_stop_sequence
      flags := markPassedStep s.flags pos.current_stop_sequence pos.eta_to_next
      lat := fix.lat
      lon := fix.lon
      speed := clampSpeed fix.speed
      heading := clampHeading fix.heading }

/-- `BusStartTripView.post` (`views_buses.py` lines 627-663): set the bus
active, upsert the location row to all zeros with
`current_stop_sequence = 0`, and `UPDATE route_stops SET passed = FALSE`
for every stop of the route. -/
def startTrip (s : SysState) : SysState :=
  { busStatus := .active
    pointer := some 0
    flags := s.flags.map (fun _ => false)
    lat := 0
    lon := 0
    speed := 0
    heading := 0 }

/-- `BusEndTripView.post` (`views_buses.py` lines 674-719): set the bus
status to the requested value if it is `inactive` or `maintenance`, else
`inactive`, and zero the stored speed and heading.  Flags and pointer are
untouched. -/
def endTrip (requested : String) (s : SysState) : SysState :=
  { s with
    busStatus := if requested = "maintenance" then .maintenance else .inactive
    speed := 0
    heading := 0 }

/-! ## Python call binding for the resolver call (`views_buses.py` line 500)

`BusLocationView.post` invokes
`get_bus_position_on_route(bus_location=.., route_stops=.., stop_seq=..)`,
but the definition in `api/mapbox.py` line 275 declares only
`(bus_location, route_stops)`.  Python raises
`TypeError: unexpected keyword argument` when a keyword argument names no
parameter; the model checks exactly that. -/

inductive PyError where
  | typeError
deriving DecidableEq, Repr

/-- A keyword-only call binds iff every keyword names a declared parameter
and every parameter receives a keyword (the callee has no defaults). -/
def kwCallBinds (params : List String) (kwargs : List String) : Bool :=
  kwargs.all (fun k => params.contains k) && params.all (fun p => kwargs.contains p)

/-- Parameter list of `get_bus_position_on_route` (`mapbox.py` lines 275-278). -/
def busPositionParams : List String := ["bus_location", "route_stops"]

/-- Keywords passed at the call site (`views_buses.py` lines 500-504). -/
def busLocationCallKeywords : List String := ["bus_location", "route_stops", "stop_seq"]

/-- `BusLocationView.post` including the resolver call itself: when the bus
has an assigned route with at least one stop the handler reaches the
keyword call; if the call binds the usual update runs, otherwise the
`TypeError` propagates and no write happens. -/
def busLocationPost (fix : Fix) (dists : List StopDist) (s : SysState) : Except PyError SysState :=
  if dists = [] then .ok (locUpdate fix [] s)
  else if kwCallBinds busPositionParams busLocationCallKeywords then .ok (locUpdate fix dists s)
  else .error .typeError

/-- The stored state after one `POST /api/buses/{id}/location/` attempt:
the handler's writes when it completes, the untouched prior state when
the `TypeError` aborts it — the exception fires at the resolver call
(`views_buses.py` line 500), before the marking block and the upsert. -/
def busLocationPostState (fix : Fix) (dists : List StopDist) (s : SysState) : SysState :=
  match busLocationPost fix dists s with
  | .ok s2 => s2
  | .error _ => s

/-- The operations that can touch a bus's stored state between a trip end
and the next trip start: further location updates and repeated end-trip
calls.  No other endpoint of the API writes `route_stops.passed`; the only
remaining writer is `startTrip`, which by definition opens the next
trip. -/
inductive PostEndEvent where
  | locationPost (fix : Fix) (dists : List StopDist)
  | endTripAgain (requested : String)

def applyPostEndEvent : PostEndEvent → SysState → SysState
  | .locationPost fix dists, s => busLocationPostState fix dists s
  | .endTripAgain requested, s => endTrip requested s

def applyPostEndEvents : List PostEndEvent → SysState → SysState
  | [], s => s
  | e :: es, s => applyPostEndEvents es (applyPostEndEvent e s)

/-! ## Batch ETA calculator, multi-waypoint path (`api/mapbox.py`)

`get_multi_stop_route` sends up to 25 waypoints to the directions service
and turns the per-leg distances/durations of the reply into cumulative
records; `get_etas_to_multiple_stops` pairs those records with the input
stops.  The network call is abstracted as an oracle from the waypoint list
to the parsed legs of the best route (`none` for a failed call, a no-route
reply, or a missing token). -/

/-- A waypoint: `(longitude, latitude)`. -/
abbrev Waypoint := ℚ × ℚ

/-- One raw leg of the parsed reply: `(leg['distance'], leg['duration'])`. -/
abbrev RawLeg := ℚ × ℚ

/-- One processed leg dict (`mapbox.py` lines 139-147). -/
structure LegOut where
  distance : ℤ
  duration : ℤ
  duration_minutes : ℚ
  cumulative_distance : ℤ
  cumulative_duration : ℤ
  cumulative_duration_minutes : ℚ
deriving DecidableEq, Repr

/-- The leg loop of `get_multi_stop_route` (`mapbox.py` lines 131-147),
carrying the running `cumulative_distance` / `cumulative_duration`. -/
def processLegs (cd ct : ℚ) : List RawLeg → List LegOut
  | [] => []
  | (d, t) :: rest =>
    let cd' := cd + d
    let ct' := ct + t
    { distance := pyRound d
      duration := pyRound t
      duration_minutes := pyRound1 (t / 60)
      cumulative_distance := pyRound cd'
      cumulative_duration := pyRound ct'
      cumulative_duration_minutes := pyRound1 (ct' / 60) } :: processLegs cd' ct' rest

/-- `get_multi_stop_route` (`mapbox.py` lines 84-164): fewer than two
waypoints fail, more than 25 are truncated to the first 25, and the oracle
reply is processed into cumulative legs. -/
def get_multi_stop_route (api : List Waypoint → Option (List RawLeg))
    (waypoints : List Waypoint) : Option (List LegOut) :=
  if waypoints.length < 2 then none
  else
    let wps := if waypoints.length > 25 then waypoints.take 25 else waypoints
    match api wps with
    | none => none
    | some legs => some (processLegs 0 0 legs)

/-- One stop given to `get_etas_to_multiple_stops`:
`(longitude, latitude, stop_id, stop_name)` with the name omitted. -/
structure StopLoc where
  lon : ℚ
  lat : ℚ
  stop_id : Nat
deriving DecidableEq, Repr

/-- One entry of the returned ETA list. -/
structure EtaEntry where
  stop_id : Nat
  eta_minutes : ℚ
  distance_meters : ℤ
deriving DecidableEq, Repr

/-- The pairing loop of `get_etas_to_multiple_stops` (`mapbox.py` lines
216-227): stop `i` is paired with leg `i`; stops beyond the last leg
produce no entry. -/
def pairEntries : List StopLoc → List LegOut → List EtaEntry
  | [], _ => []
  | _, [] => []
  | st :: sts, lg :: lgs =>
    { stop_id := st.stop_id
      eta_minutes := lg.cumulative_duration_minutes
      distance_meters := lg.cumulative_distance } :: pairEntries sts lgs

/-- `get_etas_to_multiple_stops` (`mapbox.py` lines 191-227): waypoints are
the bus location followed by every stop; an absent or leg-less reply gives
the empty list. -/
def get_etas_to_multiple_stops (api : List Waypoint → Option (List RawLeg))
    (bus : Waypoint) (stops : List StopLoc) : List EtaEntry :=
  if stops = [] then []
  else
    match get_multi_stop_route api (bus :: stops.map (fun st => (st.lon, st.lat))) with
    | none => []
    | some legs => if legs = [] then [] else pairEntries stops legs

/-! ## Arrival-status classification (`api/views_etas.py` lines 111-131,
duplicated verbatim in `api/views_displays.py` lines 385-405)

The handler takes the live provider result when present, substitutes the
fallback estimate otherwise, and classifies the resulting
`(eta_minutes, distance_meters)` pair; the classification itself never
looks at where the pair came from. -/

/-- Classification of a `(distance, eta)` pair (`views_etas.py` lines
120-131): returns the status string and the possibly zeroed
`(eta_minutes, distance_meters)` output pair. -/
def classifyArrival (distance eta : ℚ) : String × ℚ × ℚ :=
  if distance ≤ 150 then ("arrived", 0, 0)
  else if eta ≤ 1 then ("arriving", eta, distance)
  else if eta ≤ 3 then ("approaching", eta, distance)
  else ("on-route", eta, distance)

/-- `eta_result = get_eta_to_stop(..) ; if not eta_result: eta_result = fallback_eta(..)`
(`views_etas.py` lines 106-118): the pair is `(eta_minutes, distance_meters)`. -/
def selectEtaResult (live : Option (ℚ × ℚ)) (fallback : ℚ × ℚ) : ℚ × ℚ :=
  live.getD fallback

/-- The per-bus entry of `StopETAsView.get`: classification applied to the
selected pair. -/
def stopEtaEntry (live : Option (ℚ × ℚ)) (fallback : ℚ × ℚ) : String × ℚ × ℚ :=
  let r := selectEtaResult live fallback
  classifyArrival r.2 r.1

/-! ## Geometric fallback estimator (`api/mapbox.py` lines 230-272)

`haversine_distance` and `fallback_eta` are pure float arithmetic; they are
embedded over the real numbers. -/

/-- Python's `math.radians`. -/
noncomputable def radians (x : ℝ) : ℝ := x * Real.pi / 180

/-- Python's `math.atan2`, by case on the signs of the arguments. -/
noncomputable def atan2 (y x : ℝ) : ℝ :=
  if 0 < x then Real.arctan (y / x)
  else if x < 0 ∧ 0 ≤ y then Real.arctan (y / x) + Real.pi
  else if x < 0 then Real.arctan (y / x) - Real.pi
  else if 0 < y then Real.pi / 2
  else if y < 0 then -(Real.pi / 2)
  else 0

/-- `haversine_distance` (`mapbox.py` lines 233-248), translated term by
term: Earth radius 6 371 000 m, degree inputs converted with `radians`. -/
noncomputable def haversine_distance (lat1 lon1 lat2 lon2 : ℝ) : ℝ :=
  let R : ℝ := 6371000
  let rlat1 := radians lat1
  let rlon1 := radians lon1
  let rlat2 := radians lat2
  let rlon2 := radians lon2
  let dlat := rlat2 - rlat1
  let dlon := rlon2 - rlon1
  let a := Real.sin (dlat / 2) ^ 2 +
    Real.cos rlat1 * Real.cos rlat2 * Real.sin (dlon / 2) ^ 2
  let c := 2 * atan2 (Real.sqrt a) (Real.sqrt (1 - a))
  R * c

/-- The dict returned by `fallback_eta`. -/
structure EtaDict where
  eta_minutes : ℝ
  distance_meters : ℤ

/-- `fallback_eta` (`mapbox.py` lines 251-272): haversine distance, a fixed
1.3 road-detour buffer, duration from the assumed speed (the caller's
default is 25 km/h), both outputs rounded as in the source. -/
noncomputable def fallback_eta (lat1 lon1 lat2 lon2 : ℝ) (speed_kmh : ℝ) : EtaDict :=
  let distance := haversine_distance lat1 lon1 lat2 lon2
  let adjusted_distance := distance * 1.3
  let eta_minutes := adjusted_distance / 1000 / speed_kmh * 60
  { eta_minutes := pyRound1 eta_minutes
    distance_meters := pyRound adjusted_distance }

/-! ## Batch ETA calculator, leg-by-leg fallback path
(`api/views_etas.py` lines 242-269) -/

/-- One stop of `upcoming_stops` as used on the fallback path. -/
structure StopGeo where
  lat : ℝ
  lon : ℝ
  stop_id : Nat

/-- One fallback-path ETA entry. -/
structure EtaEntryR where
  stop_id : Nat
  eta_minutes : ℝ
  distance_meters : ℝ

/-- The fallback accumulation loop (`views_etas.py` lines 246-269):
leg-by-leg `fallback_eta` from the previous point, summing the rounded
segment ETA and distance, emitting the re-rounded cumulative values. -/
noncomputable def routeEtaFallbackAux (speed : ℝ) :
    ℝ → ℝ → ℝ → ℝ → List StopGeo → List EtaEntryR
  | _, _, _, _, [] => []
  | prevLat, prevLon, cumEta, cumDist, st :: rest =>
    let seg := fallback_eta prevLat prevLon st.lat st.lon speed
    let ce := cumEta + seg.eta_minutes
    let cd := cumDist + (seg.distance_meters : ℝ)
    { stop_id := st.stop_id
      eta_minutes := pyRound1 ce
      distance_meters := ((pyRound cd : ℤ) : ℝ) } ::
      routeEtaFallbackAux speed st.lat st.lon ce cd rest

/-- `speed_kmh = float(bus['speed']) if .. > 0 else 25` (`views_etas.py`
line 245). -/
noncomputable def fallbackSpeed (rawSpeed : ℝ) : ℝ :=
  if 0 < rawSpeed then rawSpeed else 25

/-- The whole fallback path of `RouteETAsView.get` for one bus. -/
noncomputable def routeEtaFallback (rawSpeed busLat busLon : ℝ)
    (stops : List StopGeo) : List EtaEntryR :=
  routeEtaFallbackAux (fallbackSpeed rawSpeed) busLat busLon 0 0 stops

/-! ## Lemmas about the rounding model -/

section PyRoundLemmas

variable {α : Type} [LinearOrderedField α] [FloorRing α]

theorem ceil_le_floor_half (x : α) : Int.ceil (x - 1/2) ≤ Int.floor (x + 1/2) := by
  have h1 : ((Int.ceil (x - 1/2) : ℤ) : α) < x + 1/2 := by
    have := Int.ceil_lt_add_one (x - 1/2)
    linarith
  have h2 : ((Int.ceil (x - 1/2) : ℤ) : α) ≤ x + 1/2 := le_of_lt h1
  exact Int.le_floor.mpr h2

theorem pyRound_le (x : α) : pyRound x ≤ Int.floor (x + 1/2) := by
  unfold pyRound
  split
  · exact ceil_le_floor_half x
  · exact le_refl _

theorem le_pyRound (x : α) : Int.ceil (x - 1/2) ≤ pyRound x := by
  unfold pyRound
  split
  · exact le_refl _
  · exact ceil_le_floor_half x

theorem pyRound_mono {x y : α} (h : x ≤ y) : pyRound x ≤ pyRound y := by
  rcases eq_or_lt_of_le h with heq | hlt
  · subst heq; exact le_refl _
  · have hmid : Int.floor (x + 1/2) ≤ Int.ceil (y - 1/2) := by
      have h1 : ((Int.floor (x + 1/2) : ℤ) : α) ≤ x + 1/2 := Int.floor_le _
      have h2 : (y - 1/2 : α) ≤ ((Int.ceil (y - 1/2) : ℤ) : α) := Int.le_ceil _
      have : ((Int.floor (x + 1/2) : ℤ) : α) < ((Int.ceil (y - 1/2) : ℤ) : α) + 1 := by
        linarith
      have hz : Int.floor (x + 1/2) < Int.ceil (y - 1/2) + 1 := by exact_mod_cast this
      omega
    exact le_trans (pyRound_le x) (le_trans hmid (le_pyRound y))

theorem pyRound_zero : pyRound (0 : α) = 0 := by
  unfold pyRound
  have h0 : Int.floor (0 : α) = 0 := Int.floor_zero
  have hc : Int.ceil ((0 : α) - 1/2) = 0 := by
    rw [Int.ceil_eq_zero_iff]
    constructor <;> norm_num
  rw [h0]
  have htwo : (0 : ℤ) % 2 = 0 := rfl
  rw [if_pos htwo]
  simpa using hc

theorem pyRound_nonneg {x : α} (h : 0 ≤ x) : 0 ≤ pyRound x := by
  have := pyRound_mono h
  rwa [pyRound_zero] at this

theorem pyRound_cast_le_add_half (x : α) : ((pyRound x : ℤ) : α) ≤ x + 1/2 := by
  have h := pyRound_le x
  have h2 : ((pyRound x : ℤ) : α) ≤ ((Int.floor (x + 1/2) : ℤ) : α) := by exact_mod_cast h
  exact le_trans h2 (Int.floor_le _)

theorem sub_half_le_pyRound_cast (x : α) : x - 1/2 ≤ ((pyRound x : ℤ) : α) := by
  have h := le_pyRound x
  have h2 : ((Int.ceil (x - 1/2) : ℤ) : α) ≤ ((pyRound x : ℤ) : α) := by exact_mod_cast h
  exact le_trans (Int.le_ceil _) h2

theorem abs_pyRound_sub_le (x : α) : |((pyRound x : ℤ) : α) - x| ≤ 1/2 := by
  rw [abs_le]
  constructor
  · have := sub_half_le_pyRound_cast x; linarith
  · have := pyRound_cast_le_add_half x; linarith

theorem pyRound1_mono {x y : α} (h : x ≤ y) : pyRound1 x ≤ pyRound1 y := by
  unfold pyRound1
  have h10 : (10 : α) * x ≤ 10 * y := by linarith
  have := pyRound_mono h10
  have hcast : ((pyRound (10 * x) : ℤ) : α) ≤ ((pyRound (10 * y) : ℤ) : α) := by
    exact_mod_cast this
  have hten : (0 : α) < 10 := by norm_num
  exact (div_le_div_iff_of_pos_right hten).mpr hcast

theorem pyRound1_nonneg {x : α} (h : 0 ≤ x) : 0 ≤ pyRound1 x := by
  have := pyRound1_mono h
  have h0 : pyRound1 (0 : α) = 0 := by
    unfold pyRound1
    rw [mul_zero, pyRound_zero]
    norm_num
  rw [h0] at this
  exact this

end PyRoundLemmas

/-! ## Lemmas about the position resolver -/

theorem pyMinByDist_spec (ss : List StopDist) :
    ∀ s : StopDist, pyMinByDist s ss ∈ s :: ss ∧
      ∀ t ∈ s :: ss, (pyMinByDist s ss).distance ≤ t.distance := by
  induction ss with
  | nil =>
    intro s
    refine ⟨List.mem_singleton.mpr rfl, ?_⟩
    intro t ht
    rw [List.mem_singleton] at ht
    subst ht
    exact le_refl _
  | cons u us ih =>
    intro s
    have hstep : pyMinByDist s (u :: us) =
        pyMinByDist (if u.distance < s.distance then u else s) us := rfl
    obtain ⟨ihmem, ihle⟩ := ih (if u.distance < s.distance then u else s)
    constructor
    · rw [hstep]
      rcases List.mem_cons.mp ihmem with h | h
      · rw [h]
        by_cases hc : u.distance < s.distance
        · simp [hc]
        · simp [hc]
      · exact List.mem_cons.mpr (Or.inr (List.mem_cons.mpr (Or.inr h)))
    · intro t ht
      rw [hstep]
      have hacc : (pyMinByDist (if u.distance < s.distance then u else s) us).distance ≤
          (if u.distance < s.distance then u else s).distance :=
        ihle _ (List.mem_cons.mpr (Or.inl rfl))
      have haccs : (if u.distance < s.distance then u else s).distance ≤ s.distance := by
        by_cases hc : u.distance < s.distance
        · rw [if_pos hc]; exact le_of_lt hc
        · rw [if_neg hc]
      have haccu : (if u.distance < s.distance then u else s).distance ≤ u.distance := by
        by_cases hc : u.distance < s.distance
        · rw [if_pos hc]
        · rw [if_neg hc]; exact le_of_not_lt hc
      rcases List.mem_cons.mp ht with h | h
      · subst h; exact le_trans hacc haccs
      · rcases List.mem_cons.mp h with h2 | h2
        · subst h2; exact le_trans hacc haccu
        · exact ihle t (List.mem_cons.mpr (Or.inr h2))

theorem pyMinByDist_mem (s : StopDist) (ss : List StopDist) :
    pyMinByDist s ss ∈ s :: ss :=
  (pyMinByDist_spec ss s).1

theorem pyMinByDist_le (s : StopDist) (ss : List StopDist) :
    ∀ t ∈ s :: ss, (pyMinByDist s ss).distance ≤ t.distance :=
  (pyMinByDist_spec ss s).2

theorem insertBySeq_of_lt_head (a : StopDist) (l : List StopDist)
    (h : ∀ b ∈ l.head?, a.sequence < b.sequence) : insertBySeq a l = a :: l := by
  cases l with
  | nil => rfl
  | cons b bs =>
    have hb : a.sequence < b.sequence := h b rfl
    unfold insertBySeq
    rw [if_pos hb]

theorem sortBySeq_eq_self {l : List StopDist}
    (h : List.Chain' (fun a b => a.sequence < b.sequence) l) : sortBySeq l = l := by
  induction l with
  | nil => rfl
  | cons a as ih =>
    have htail : List.Chain' (fun a b : StopDist => a.sequence < b.sequence) as :=
      h.tail
    have hs : sortBySeq (a :: as) = insertBySeq a (sortBySeq as) := rfl
    rw [hs, ih htail]
    apply insertBySeq_of_lt_head
    intro b hb
    exact List.chain'_cons'.mp h |>.1 b hb

/-- Unfolding of the resolver in the at-stop case for an already sorted
stop list. -/
theorem resolver_at_stop (x : StopDist) (xs : List StopDist)
    (hsort : sortBySeq (x :: xs) = x :: xs)
    (hd : (pyMinByDist x xs).distance ≤ 150) :
    get_bus_position_on_route (x :: xs) =
      { last_passed_stop := (pyMinByDist x xs).sequence
        next_stop := if (pyMinByDist x xs).sequence < (x :: xs).length
          then (pyMinByDist x xs).sequence + 1 else (pyMinByDist x xs).sequence
        is_at_stop := true
        current_stop_sequence := (pyMinByDist x xs).sequence
        distance_to_next := some 0
        eta_to_next := some 0 } := by
  unfold get_bus_position_on_route
  rw [hsort]
  simp only [if_pos hd]

/-- Away from every stop the resolver never reports at-stop. -/
theorem resolver_not_at_stop (x : StopDist) (xs : List StopDist)
    (hsort : sortBySeq (x :: xs) = x :: xs)
    (hd : ¬ (pyMinByDist x xs).distance ≤ 150) :
    (get_bus_position_on_route (x :: xs)).is_at_stop = false := by
  unfold get_bus_position_on_route
  rw [hsort]
  simp only [if_neg hd]
  split
  · rfl
  · split
    · rfl
    · split
      · rfl
      · rfl

/-! ## Lemmas about the passed-stop policy -/

theorem seqFlag_some_bound {flags : List Bool} {seq : Nat} {b : Bool}
    (h : seqFlag flags seq = some b) : seq ≠ 0 ∧ seq - 1 < flags.length := by
  unfold seqFlag at h
  by_cases h0 : seq = 0
  · rw [if_pos h0] at h; exact absurd h (by simp)
  · rw [if_neg h0] at h
    refine ⟨h0, ?_⟩
    exact (List.getElem?_eq_some.mp h).1

theorem seqFlag_seqSetFlag_self {flags : List Bool} {seq : Nat}
    (h0 : seq ≠ 0) (hlt : seq - 1 < flags.length) :
    seqFlag (seqSetFlag flags seq) seq = some true := by
  unfold seqFlag seqSetFlag
  rw [if_neg h0, if_neg h0]
  exact List.getElem?_set_eq_of_lt true hlt

theorem seqFlag_seqSetFlag_ne {flags : List Bool} {seq i : Nat}
    (hseq : seq ≠ 0) (hne : i ≠ seq) :
    seqFlag (seqSetFlag flags seq) i = seqFlag flags i := by
  unfold seqFlag seqSetFlag
  by_cases hi : i = 0
  · rw [if_pos hi, if_pos hi]
  · rw [if_neg hi, if_neg hi, if_neg hseq]
    have hidx : seq - 1 ≠ i - 1 := by omega
    exact List.getElem?_set_ne hidx

theorem markPassedStep_of_unmarked {flags : List Bool} {seq : Nat} {e : ℚ}
    (he : e < 1) (hflag : seqFlag flags seq = some false) :
    markPassedStep flags seq (some e) = seqSetFlag flags seq := by
  simp only [markPassedStep]
  rw [if_pos he, if_pos hflag]

theorem markPassedStep_cases (flags : List Bool) (seq : Nat) (eta : Option ℚ) :
    markPassedStep flags seq eta = flags ∨
    (∃ e : ℚ, eta = some e ∧ e < 1 ∧ seqFlag flags seq = some false ∧
      markPassedStep flags seq eta = seqSetFlag flags seq) := by
  match eta with
  | none => exact Or.inl rfl
  | some e =>
    by_cases he : e < 1
    · by_cases hf : seqFlag flags seq = some false
      · exact Or.inr ⟨e, rfl, he, hf, markPassedStep_of_unmarked he hf⟩
      · left
        simp only [markPassedStep]
        rw [if_pos he, if_neg hf]
    · left
      simp only [markPassedStep]
      rw [if_neg he]

/-! ## Claim theorems -/

/-- C1: the spec claims `get_bus_position_on_route` only considers stops
with `sequence >= p` (the stored pointer), making the stored pointer
non-decreasing.  The source function takes no pointer at all and scans
every stop; its only caller (`views_buses.py` line 500) does pass a
`stop_seq` keyword, which the signature rejects (see C2), so the filter
was intended but never implemented.  Evaluation at the failing input: the
stored pointer is 3 (the bus had reached the stop of sequence 3), the bus
reports next to stop 1, and the resolver hands back pointer 1 < 3. -/
theorem c1_pointer_can_decrease :
    (get_bus_position_on_route
      [⟨1, 10, 1/5⟩, ⟨2, 400, 8⟩, ⟨3, 900, 18⟩]).current_stop_sequence < 3 := by
  decide

/-- C2: the location-update handler calls `get_bus_position_on_route` with
keywords `bus_location`, `route_stops` and `stop_seq`, but the function
declares only `bus_location` and `route_stops`; whenever the bus has an
assigned route with at least one stop the call raises `TypeError`, and the
position-resolution / flag-update / upsert path never completes normally. -/
theorem c2_location_post_type_error (fix : Fix) (dists : List StopDist)
    (s : SysState) (h : dists ≠ []) :
    busLocationPost fix dists s = .error .typeError := by
  unfold busLocationPost
  rw [if_neg h]
  have hbind : ¬ (kwCallBinds busPositionParams busLocationCallKeywords = true) := by
    decide
  rw [if_neg hbind]

theorem c2_location_post_type_error_witness :
    ([⟨1, 10, 1/5⟩] : List StopDist) ≠ [] ∧
    busLocationPost ⟨0, 0, 0, 0⟩ [⟨1, 10, 1/5⟩]
      ⟨.active, none, [false], 0, 0, 0, 0⟩ = .error .typeError :=
  ⟨by decide, c2_location_post_type_error ⟨0, 0, 0, 0⟩ [⟨1, 10, 1/5⟩]
    ⟨.active, none, [false], 0, 0, 0, 0⟩ (by decide)⟩

/-- C4: on every processed fix, if the resolver's ETA is below 1.0 minute
and the flag of the stop at `current_stop_sequence` is false, the marking
block sets it to true; the transition is idempotent (check-then-set) and
never turns a true flag false. -/
theorem c4_passed_marking (flags : List Bool) (seq : Nat) (eta : Option ℚ) :
    (∀ e : ℚ, eta = some e → e < 1 → seqFlag flags seq = some false →
      seqFlag (markPassedStep flags seq eta) seq = some true) ∧
    markPassedStep (markPassedStep flags seq eta) seq eta =
      markPassedStep flags seq eta ∧
    (∀ i : Nat, seqFlag flags i = some true →
      seqFlag (markPassedStep flags seq eta) i = some true) := by
  refine ⟨?_, ?_, ?_⟩
  · intro e hee he hflag
    subst hee
    rw [markPassedStep_of_unmarked he hflag]
    obtain ⟨h0, hlt⟩ := seqFlag_some_bound hflag
    exact seqFlag_seqSetFlag_self h0 (by simpa using hlt)
  · rcases markPassedStep_cases flags seq eta with h | ⟨e, hee, he, hflag, h⟩
    · rw [h]
      exact h
    · rw [h]
      subst hee
      obtain ⟨h0, hlt⟩ := seqFlag_some_bound hflag
      have hset : seqFlag (seqSetFlag flags seq) seq = some true :=
        seqFlag_seqSetFlag_self h0 hlt
      have hne : ¬ (seqFlag (seqSetFlag flags seq) seq = some false) := by
        rw [hset]
        simp
      simp only [markPassedStep]
      rw [if_pos he, if_neg hne]
  · intro i hi
    rcases markPassedStep_cases flags seq eta with h | ⟨e, hee, he, hflag, h⟩
    · rw [h]; exact hi
    · rw [h]
      by_cases his : i = seq
      · subst his
        rw [hi] at hflag
        exact absurd hflag (by simp)
      · obtain ⟨h0, _⟩ := seqFlag_some_bound hflag
        rw [seqFlag_seqSetFlag_ne h0 his]
        exact hi

theorem c4_passed_marking_witness :
    ((some (1/2 : ℚ)) = some (1/2 : ℚ) ∧ (1/2 : ℚ) < 1 ∧
      seqFlag [false] 1 = some false) ∧
    seqFlag (markPassedStep [false] 1 (some (1/2))) 1 = some true :=
  ⟨⟨rfl, by norm_num, by decide⟩,
    (c4_passed_marking [false] 1 (some (1/2))).1 (1/2) rfl (by norm_num) (by decide)⟩

/-- C5: `startTrip` resets every `passed` flag of the assigned route to
false and resets the stored pointer to 0, whatever the prior state. -/
theorem c5_start_trip_resets (s : SysState) :
    (startTrip s).flags = List.replicate s.flags.length false ∧
    (startTrip s).pointer = some 0 := by
  refine ⟨?_, rfl⟩
  show s.flags.map (fun _ => false) = List.replicate s.flags.length false
  exact List.map_const' s.flags false

/-- In the delivered code a location-update attempt never changes a
`passed` flag: for a route with stops the handler dies with the
`TypeError` before the marking block, and for a bus without stops the
handler writes the location row but touches no flag. -/
theorem busLocationPostState_flags (fix : Fix) (dists : List StopDist) (s : SysState) :
    (busLocationPostState fix dists s).flags = s.flags := by
  by_cases h : dists = []
  · subst h
    rfl
  · unfold busLocationPostState busLocationPost
    rw [if_neg h]
    rfl

theorem applyPostEndEvents_flags (events : List PostEndEvent) :
    ∀ s : SysState, (applyPostEndEvents events s).flags = s.flags := by
  induction events with
  | nil => intro s; rfl
  | cons e es ih =>
    intro s
    have hstep : (applyPostEndEvent e s).flags = s.flags := by
      cases e with
      | locationPost fix dists => exact busLocationPostState_flags fix dists s
      | endTripAgain requested => rfl
    have hrec : applyPostEndEvents (e :: es) s =
        applyPostEndEvents es (applyPostEndEvent e s) := rfl
    rw [hrec, ih (applyPostEndEvent e s), hstep]

/-- C6: in the delivered program every state reachable between a trip end
and the next trip start keeps every `passed` flag unchanged: `endTrip`
writes no flag, a location update for a route with stops aborts with the
C2 `TypeError` at the resolver call before the marking block, a location
update for a bus without stops writes no flag, and no other endpoint
writes `route_stops.passed`.  Starting from any prior state, after
`endTrip` and any sequence of location updates and further end-trip
calls, the flags still equal those before the trip end. -/
theorem c6_flags_frozen_after_end (requested : String) (s : SysState)
    (events : List PostEndEvent) :
    (applyPostEndEvents events (endTrip requested s)).flags = s.flags := by
  rw [applyPostEndEvents_flags events (endTrip requested s)]
  rfl

/-- C9: arrival-status classification — distance at most 150 m yields
"arrived" with both outputs zeroed; otherwise ETA at most 1 minute yields
"arriving", at most 3 "approaching", else "on-route"; and when the live
provider result is absent the very same classification is applied to the
fallback estimate. -/
theorem c9_arrival_classification (d e : ℚ) :
    ((classifyArrival d e).1 = "arrived" ↔ d ≤ 150) ∧
    (d ≤ 150 → classifyArrival d e = ("arrived", 0, 0)) ∧
    ((classifyArrival d e).1 = "arriving" ↔ 150 < d ∧ e ≤ 1) ∧
    ((classifyArrival d e).1 = "approaching" ↔ 150 < d ∧ 1 < e ∧ e ≤ 3) ∧
    ((classifyArrival d e).1 = "on-route" ↔ 150 < d ∧ 3 < e) ∧
    (∀ fb : ℚ × ℚ, stopEtaEntry none fb = classifyArrival fb.2 fb.1) := by
  unfold classifyArrival stopEtaEntry selectEtaResult
  by_cases h1 : d ≤ 150
  · rw [if_pos h1]
    refine ⟨by simpa using h1, fun _ => rfl, ?_, ?_, ?_, fun fb => rfl⟩
    · simp only [show ¬ (("arrived" : String) = "arriving") from by decide, false_iff]
      intro hc
      exact absurd h1 (not_le.mpr hc.1)
    · simp only [show ¬ (("arrived" : String) = "approaching") from by decide, false_iff]
      intro hc
      exact absurd h1 (not_le.mpr hc.1)
    · simp only [show ¬ (("arrived" : String) = "on-route") from by decide, false_iff]
      intro hc
      exact absurd h1 (not_le.mpr hc.1)
  · rw [if_neg h1]
    have hd : 150 < d := not_le.mp h1
    by_cases h2 : e ≤ 1
    · rw [if_pos h2]
      refine ⟨?_, fun hc => absurd hc h1, ?_, ?_, ?_, fun fb => rfl⟩
      · simp only [show ¬ (("arriving" : String) = "arrived") from by decide, false_iff]
        exact h1
      · exact ⟨fun _ => ⟨hd, h2⟩, fun _ => rfl⟩
      · simp only [show ¬ (("arriving" : String) = "approaching") from by decide, false_iff]
        intro hc
        exact absurd h2 (not_le.mpr hc.2.1)
      · simp only [show ¬ (("arriving" : String) = "on-route") from by decide, false_iff]
        intro hc
        exact absurd h2 (not_le.mpr (lt_trans (by norm_num) hc.2))
    · rw [if_neg h2]
      have he1 : 1 < e := not_le.mp h2
      by_cases h3 : e ≤ 3
      · rw [if_pos h3]
        refine ⟨?_, fun hc => absurd hc h1, ?_, ?_, ?_, fun fb => rfl⟩
        · simp only [show ¬ (("approaching" : String) = "arrived") from by decide, false_iff]
          exact h1
        · simp only [show ¬ (("approaching" : String) = "arriving") from by decide, false_iff]
          intro hc
          exact absurd hc.2 h2
        · exact ⟨fun _ => ⟨hd, he1, h3⟩, fun _ => rfl⟩
        · simp only [show ¬ (("approaching" : String) = "on-route") from by decide, false_iff]
          intro hc
          exact absurd h3 (not_le.mpr hc.2)
      · rw [if_neg h3]
        have he3 : 3 < e := not_le.mp h3
        refine ⟨?_, fun hc => absurd hc h1, ?_, ?_, ?_, fun fb => rfl⟩
        · simp only [show ¬ (("on-route" : String) = "arrived") from by decide, false_iff]
          exact h1
        · simp only [show ¬ (("on-route" : String) = "arriving") from by decide, false_iff]
          intro hc
          exact absurd hc.2 (not_le.mpr (lt_trans (by norm_num) he3))
        · simp only [show ¬ (("on-route" : String) = "approaching") from by decide, false_iff]
          intro hc
          exact absurd hc.2.2 h3
        · exact ⟨fun _ => ⟨hd, he3⟩, fun _ => rfl⟩

theorem c9_arrival_classification_witness :
    (100 : ℚ) ≤ 150 ∧ classifyArrival 100 5 = ("arrived", 0, 0) :=
  ⟨by norm_num, (c9_arrival_classification 100 5).2.1 (by norm_num)⟩

/-- C3 counterexample: a fix 100 m (provider distance) from stop 1 of a
two-stop route.  The resolver reports `is_at_stop = true` although no
stop is within 30 m: the source threshold (`mapbox.py` line 339) is
150 m, not the 30 m the claim states. -/
theorem c3_threshold_counterexample :
    (get_bus_position_on_route [⟨1, 100, 2⟩, ⟨2, 5000, 10⟩]).is_at_stop = true ∧
    ∀ t ∈ ([⟨1, 100, 2⟩, ⟨2, 5000, 10⟩] : List StopDist), ¬ t.distance ≤ 30 := by
  decide

/-- C3 amended: for a non-empty stop list with the dense 1..N sequence
numbering of the data model, the resolver reports `is_at_stop = true`
exactly when the minimum per-stop distance is at most 150 m
(`AT_STOP_THRESHOLD`), and in that case the output carries the nearest
stop's sequence, zero distance and ETA, and the following sequence when
one exists, else the nearest sequence. -/
theorem c3_at_stop_threshold_150 (ds : List StopDist) (hne : ds ≠ [])
    (hseq : ds.map (fun t => t.sequence) = List.range' 1 ds.length) :
    ((get_bus_position_on_route ds).is_at_stop = true ↔ ∃ t ∈ ds, t.distance ≤ 150) ∧
    ((get_bus_position_on_route ds).is_at_stop = true →
      ∃ nr ∈ ds, nr.distance ≤ 150 ∧ (∀ t ∈ ds, nr.distance ≤ t.distance) ∧
        (get_bus_position_on_route ds).current_stop_sequence = nr.sequence ∧
        (get_bus_position_on_route ds).distance_to_next = some 0 ∧
        (get_bus_position_on_route ds).eta_to_next = some 0 ∧
        (get_bus_position_on_route ds).next_stop =
          (if ∃ t ∈ ds, t.sequence = nr.sequence + 1
            then nr.sequence + 1 else nr.sequence)) := by
  cases ds with
  | nil => exact absurd rfl hne
  | cons x xs =>
    have hpair : List.Pairwise (· < ·) (List.range' 1 (x :: xs).length) :=
      List.pairwise_lt_range' 1 (x :: xs).length
    have hchainmap : List.Chain' (· < ·) ((x :: xs).map (fun t => t.sequence)) := by
      rw [hseq]
      exact hpair.chain'
    have hchain : List.Chain' (fun a b : StopDist => a.sequence < b.sequence) (x :: xs) :=
      (List.chain'_map (fun t : StopDist => t.sequence)).mp hchainmap
    have hsort : sortBySeq (x :: xs) = x :: xs := sortBySeq_eq_self hchain
    have hmem := pyMinByDist_mem x xs
    have hle := pyMinByDist_le x xs
    by_cases hd : (pyMinByDist x xs).distance ≤ 150
    · have hres := resolver_at_stop x xs hsort hd
      constructor
      · rw [hres]
        exact ⟨fun _ => ⟨pyMinByDist x xs, hmem, hd⟩, fun _ => rfl⟩
      · intro _
        refine ⟨pyMinByDist x xs, hmem, hd, hle, ?_, ?_, ?_, ?_⟩
        · rw [hres]
        · rw [hres]
        · rw [hres]
        · rw [hres]
          have hiff : (pyMinByDist x xs).sequence < (x :: xs).length ↔
              ∃ t ∈ x :: xs, t.sequence = (pyMinByDist x xs).sequence + 1 := by
            constructor
            · intro hlt
              have hmem2 : (pyMinByDist x xs).sequence + 1 ∈
                  (x :: xs).map (fun t => t.sequence) := by
                rw [hseq]
                rw [List.mem_range'_1]
                have hfirst : (pyMinByDist x xs).sequence ∈
                    (x :: xs).map (fun t => t.sequence) :=
                  List.mem_map_of_mem _ hmem
                rw [hseq, List.mem_range'_1] at hfirst
                omega
              obtain ⟨t, ht, hteq⟩ := List.mem_map.mp hmem2
              exact ⟨t, ht, hteq⟩
            · intro ⟨t, ht, hteq⟩
              have : t.sequence ∈ (x :: xs).map (fun u => u.sequence) :=
                List.mem_map_of_mem _ ht
              rw [hseq, List.mem_range'_1] at this
              omega
          exact if_congr hiff rfl rfl
    · have hfalse := resolver_not_at_stop x xs hsort hd
      constructor
      · rw [hfalse]
        refine iff_of_false (by simp) ?_
        intro ⟨t, ht, h150⟩
        exact hd (le_trans (hle t ht) h150)
      · intro habs
        rw [hfalse] at habs
        exact absurd habs (by simp)

theorem c3_at_stop_threshold_150_witness :
    (([⟨1, 100, 2⟩, ⟨2, 5000, 10⟩] : List StopDist) ≠ [] ∧
      ([⟨1, 100, 2⟩, ⟨2, 5000, 10⟩] : List StopDist).map (fun t => t.sequence) =
        List.range' 1 ([⟨1, 100, 2⟩, ⟨2, 5000, 10⟩] : List StopDist).length) ∧
    ((get_bus_position_on_route [⟨1, 100, 2⟩, ⟨2, 5000, 10⟩]).is_at_stop = true ↔
      ∃ t ∈ ([⟨1, 100, 2⟩, ⟨2, 5000, 10⟩] : List StopDist), t.distance ≤ 150) :=
  ⟨⟨by decide, by decide⟩,
    (c3_at_stop_threshold_150 [⟨1, 100, 2⟩, ⟨2, 5000, 10⟩] (by decide) (by decide)).1⟩

/-! ## Lemmas about the batch ETA calculator -/

theorem processLegs_length (legs : List RawLeg) :
    ∀ cd ct : ℚ, (processLegs cd ct legs).length = legs.length := by
  induction legs with
  | nil => intro cd ct; rfl
  | cons l rest ih =>
    intro cd ct
    obtain ⟨d, t⟩ := l
    simp only [processLegs, List.length_cons, ih]

theorem processLegs_lower (legs : List RawLeg) :
    ∀ cd ct : ℚ, (∀ l ∈ legs, 0 ≤ l.1 ∧ 0 ≤ l.2) →
      ∀ e ∈ processLegs cd ct legs,
        pyRound cd ≤ e.cumulative_distance ∧
        pyRound1 (ct / 60) ≤ e.cumulative_duration_minutes := by
  induction legs with
  | nil =>
    intro cd ct _ e he
    exact absurd he (by simp [processLegs])
  | cons l rest ih =>
    intro cd ct hnn e he
    obtain ⟨d, t⟩ := l
    have hd : 0 ≤ d := (hnn (d, t) (List.mem_cons_self _ _)).1
    have ht : 0 ≤ t := (hnn (d, t) (List.mem_cons_self _ _)).2
    have hcd : pyRound cd ≤ pyRound (cd + d) := pyRound_mono (by linarith)
    have hct : pyRound1 (ct / 60) ≤ pyRound1 ((ct + t) / 60) :=
      pyRound1_mono (by linarith)
    simp only [processLegs, List.mem_cons] at he
    rcases he with rfl | he
    · exact ⟨hcd, hct⟩
    · have hsub : ∀ l ∈ rest, 0 ≤ l.1 ∧ 0 ≤ l.2 :=
        fun l hl => hnn l (List.mem_cons_of_mem _ hl)
      obtain ⟨h1, h2⟩ := ih (cd + d) (ct + t) hsub e he
      exact ⟨le_trans hcd h1, le_trans hct h2⟩

theorem processLegs_chain (legs : List RawLeg) :
    ∀ cd ct : ℚ, (∀ l ∈ legs, 0 ≤ l.1 ∧ 0 ≤ l.2) →
      List.Chain'
        (fun a b : LegOut =>
          a.cumulative_duration_minutes ≤ b.cumulative_duration_minutes ∧
          a.cumulative_distance ≤ b.cumulative_distance)
        (processLegs cd ct legs) := by
  induction legs with
  | nil => intro cd ct _; simp [processLegs]
  | cons l rest ih =>
    intro cd ct hnn
    obtain ⟨d, t⟩ := l
    have hsub : ∀ l ∈ rest, 0 ≤ l.1 ∧ 0 ≤ l.2 :=
      fun l hl => hnn l (List.mem_cons_of_mem _ hl)
    simp only [processLegs]
    rw [List.chain'_cons']
    refine ⟨?_, ih (cd + d) (ct + t) hsub⟩
    intro b hb
    have hbmem : b ∈ processLegs (cd + d) (ct + t) rest :=
      List.mem_of_mem_head? hb
    obtain ⟨h1, h2⟩ := processLegs_lower rest (cd + d) (ct + t) hsub b hbmem
    exact ⟨h2, h1⟩

theorem pairEntries_length (sts : List StopLoc) :
    ∀ lgs : List LegOut, (pairEntries sts lgs).length = min sts.length lgs.length := by
  induction sts with
  | nil => intro lgs; simp [pairEntries]
  | cons s sts ih =>
    intro lgs
    cases lgs with
    | nil => simp [pairEntries]
    | cons l lgs =>
      simp only [pairEntries, List.length_cons, ih, Nat.succ_min_succ]

theorem pairEntries_ids (sts : List StopLoc) :
    ∀ lgs : List LegOut, sts.length ≤ lgs.length →
      (pairEntries sts lgs).map (fun e => e.stop_id) =
        sts.map (fun st => st.stop_id) := by
  induction sts with
  | nil => intro lgs _; simp [pairEntries]
  | cons s sts ih =>
    intro lgs hlen
    cases lgs with
    | nil => exact absurd hlen (by simp)
    | cons l lgs =>
      simp only [pairEntries, List.map_cons]
      rw [ih lgs (by simpa using hlen)]

theorem pairEntries_chain (sts : List StopLoc) :
    ∀ lgs : List LegOut,
      List.Chain'
        (fun a b : LegOut =>
          a.cumulative_duration_minutes ≤ b.cumulative_duration_minutes ∧
          a.cumulative_distance ≤ b.cumulative_distance) lgs →
      List.Chain'
        (fun a b : EtaEntry =>
          a.eta_minutes ≤ b.eta_minutes ∧ a.distance_meters ≤ b.distance_meters)
        (pairEntries sts lgs) := by
  induction sts with
  | nil => intro lgs _; simp [pairEntries]
  | cons s sts ih =>
    intro lgs hch
    cases lgs with
    | nil => simp [pairEntries]
    | cons l lgs =>
      simp only [pairEntries]
      rw [List.chain'_cons']
      refine ⟨?_, ih lgs hch.tail⟩
      intro b hb
      cases sts with
      | nil => exact absurd hb (by simp [pairEntries])
      | cons s2 sts2 =>
        cases lgs with
        | nil => exact absurd hb (by simp [pairEntries])
        | cons l2 lgs2 =>
          have hb2 : b = ⟨s2.stop_id, l2.cumulative_duration_minutes,
              l2.cumulative_distance⟩ := by
            have := hb
            simp only [pairEntries, List.head?_cons, Option.mem_def,
              Option.some_inj] at this
            exact this.symm
          have hrel := (List.chain'_cons.mp hch).1
          rw [hb2]
          exact ⟨hrel.1, hrel.2⟩

/-! ## Nonnegativity of the geometric fallback -/

theorem atan2_nonneg {y x : ℝ} (hy : 0 ≤ y) (hx : 0 ≤ x) : 0 ≤ atan2 y x := by
  unfold atan2
  split_ifs with h1 h2 h3 h4 h5
  · have := Real.arctan_strictMono.monotone (div_nonneg hy h1.le)
    rwa [Real.arctan_zero] at this
  · exact absurd h2.1 (not_lt.mpr hx)
  · exact absurd h3 (not_lt.mpr hx)
  · linarith [Real.pi_pos]
  · exact absurd h5 (not_lt.mpr hy)
  · exact le_refl 0

theorem haversine_nonneg (lat1 lon1 lat2 lon2 : ℝ) :
    0 ≤ haversine_distance lat1 lon1 lat2 lon2 := by
  simp only [haversine_distance]
  apply mul_nonneg (by norm_num)
  apply mul_nonneg (by norm_num)
  exact atan2_nonneg (Real.sqrt_nonneg _) (Real.sqrt_nonneg _)

theorem fallback_eta_nonneg {speed : ℝ} (hs : 0 < speed) (lat1 lon1 lat2 lon2 : ℝ) :
    0 ≤ (fallback_eta lat1 lon1 lat2 lon2 speed).eta_minutes ∧
    0 ≤ ((fallback_eta lat1 lon1 lat2 lon2 speed).distance_meters : ℝ) := by
  have hh := haversine_nonneg lat1 lon1 lat2 lon2
  constructor
  · show 0 ≤ pyRound1 (haversine_distance lat1 lon1 lat2 lon2 * 1.3 / 1000 / speed * 60)
    apply pyRound1_nonneg
    apply mul_nonneg _ (by norm_num)
    apply div_nonneg _ hs.le
    apply div_nonneg _ (by norm_num)
    exact mul_nonneg hh (by norm_num)
  · show 0 ≤ ((pyRound (haversine_distance lat1 lon1 lat2 lon2 * 1.3) : ℤ) : ℝ)
    exact_mod_cast pyRound_nonneg (mul_nonneg hh (by norm_num))

theorem fallbackSpeed_pos (rawSpeed : ℝ) : 0 < fallbackSpeed rawSpeed := by
  unfold fallbackSpeed
  split
  · assumption
  · norm_num

/-! ## Lemmas about the fallback accumulation loop -/

theorem routeEtaFallbackAux_length {speed : ℝ} (stops : List StopGeo) :
    ∀ pl pn ce cd : ℝ,
      (routeEtaFallbackAux speed pl pn ce cd stops).length = stops.length := by
  induction stops with
  | nil => intro pl pn ce cd; rfl
  | cons st rest ih =>
    intro pl pn ce cd
    simp only [routeEtaFallbackAux, List.length_cons, ih]

theorem routeEtaFallbackAux_ids {speed : ℝ} (stops : List StopGeo) :
    ∀ pl pn ce cd : ℝ,
      (routeEtaFallbackAux speed pl pn ce cd stops).map (fun e => e.stop_id) =
        stops.map (fun st => st.stop_id) := by
  induction stops with
  | nil => intro pl pn ce cd; rfl
  | cons st rest ih =>
    intro pl pn ce cd
    simp only [routeEtaFallbackAux, List.map_cons, ih]

theorem routeEtaFallbackAux_lower {speed : ℝ} (hs : 0 < speed) (stops : List StopGeo) :
    ∀ pl pn ce cd : ℝ, ∀ e ∈ routeEtaFallbackAux speed pl pn ce cd stops,
      pyRound1 ce ≤ e.eta_minutes ∧ ((pyRound cd : ℤ) : ℝ) ≤ e.distance_meters := by
  induction stops with
  | nil =>
    intro pl pn ce cd e he
    exact absurd he (by simp [routeEtaFallbackAux])
  | cons st rest ih =>
    intro pl pn ce cd e he
    obtain ⟨hseg_eta, hseg_dist⟩ := fallback_eta_nonneg hs pl pn st.lat st.lon
    have hce : pyRound1 ce ≤
        pyRound1 (ce + (fallback_eta pl pn st.lat st.lon speed).eta_minutes) :=
      pyRound1_mono (by linarith)
    have hcd : ((pyRound cd : ℤ) : ℝ) ≤
        ((pyRound (cd + ((fallback_eta pl pn st.lat st.lon speed).distance_meters : ℝ)) : ℤ) : ℝ) := by
      exact_mod_cast pyRound_mono (by linarith)
    simp only [routeEtaFallbackAux, List.mem_cons] at he
    rcases he with rfl | he
    · exact ⟨hce, hcd⟩
    · obtain ⟨h1, h2⟩ := ih st.lat st.lon
        (ce + (fallback_eta pl pn st.lat st.lon speed).eta_minutes)
        (cd + ((fallback_eta pl pn st.lat st.lon speed).distance_meters : ℝ)) e he
      exact ⟨le_trans hce h1, le_trans hcd h2⟩

theorem routeEtaFallbackAux_chain {speed : ℝ} (hs : 0 < speed) (stops : List StopGeo) :
    ∀ pl pn ce cd : ℝ,
      List.Chain'
        (fun a b : EtaEntryR =>
          a.eta_minutes ≤ b.eta_minutes ∧ a.distance_meters ≤ b.distance_meters)
        (routeEtaFallbackAux speed pl pn ce cd stops) := by
  induction stops with
  | nil => intro pl pn ce cd; simp [routeEtaFallbackAux]
  | cons st rest ih =>
    intro pl pn ce cd
    simp only [routeEtaFallbackAux]
    rw [List.chain'_cons']
    refine ⟨?_, ih st.lat st.lon _ _⟩
    intro b hb
    have hbmem : b ∈ routeEtaFallbackAux speed st.lat st.lon
        (ce + (fallback_eta pl pn st.lat st.lon speed).eta_minutes)
        (cd + ((fallback_eta pl pn st.lat st.lon speed).distance_meters : ℝ)) rest :=
      List.mem_of_mem_head? hb
    exact routeEtaFallbackAux_lower hs rest st.lat st.lon _ _ b hbmem

/-- Closed-form value of the haversine model at the antipodal pair
`(0, 0)` → `(0, 180)`: half the Earth's circumference. -/
theorem haversine_antipodal : haversine_distance 0 0 0 180 = 6371000 * Real.pi := by
  have h180 : (180 : ℝ) * Real.pi / 180 = Real.pi := by ring
  simp only [haversine_distance, radians, zero_mul, zero_div, sub_zero, sub_self, h180,
    Real.cos_zero, one_mul, mul_one]
  rw [Real.sin_zero, Real.sin_pi_div_two]
  have ha : (0 : ℝ) ^ 2 + 1 ^ 2 = 1 := by norm_num
  rw [ha]
  have hz : (1 : ℝ) - 1 = 0 := by norm_num
  rw [hz, Real.sqrt_one, Real.sqrt_zero]
  have hat : atan2 1 0 = Real.pi / 2 := by
    unfold atan2
    norm_num
  rw [hat]
  ring

/-- C7 counterexample: at the pair `(0,0)` → `(0,180)` the returned
`distance_meters` is the rounded value `round(1.3 * d)` and cannot equal
the exact product `d * 1.3 = 8282300 * pi`, which is irrational. -/
theorem c7_rounded_not_exact :
    ((fallback_eta 0 0 0 180 25).distance_meters : ℝ) ≠
      haversine_distance 0 0 0 180 * 1.3 := by
  have hirr : Irrational (haversine_distance 0 0 0 180 * 1.3) := by
    rw [haversine_antipodal]
    have hval : (6371000 : ℝ) * Real.pi * 1.3 = ((8282300 : ℕ) : ℝ) * Real.pi := by
      push_cast
      ring_nf
    rw [hval]
    exact irrational_pi.nat_mul (by norm_num)
  intro heq
  exact hirr.ne_int _ heq.symm

/-- C7 amended: the fallback estimator is total; its returned distance is
the exact product `haversine * 1.3` rounded to the nearest integer meter
(so within half a meter of exactly 1.3 times the raw great-circle
distance), its duration is derived from that adjusted distance at the
assumed speed, and whenever the raw distance is at least 5/3 m the
rounded output is still at least 1.0 times the raw distance. -/
theorem c7_fallback_buffered (lat1 lon1 lat2 lon2 speed : ℝ) :
    (fallback_eta lat1 lon1 lat2 lon2 speed).distance_meters =
      pyRound (haversine_distance lat1 lon1 lat2 lon2 * 1.3) ∧
    |((fallback_eta lat1 lon1 lat2 lon2 speed).distance_meters : ℝ) -
      haversine_distance lat1 lon1 lat2 lon2 * 1.3| ≤ 1/2 ∧
    (fallback_eta lat1 lon1 lat2 lon2 speed).eta_minutes =
      pyRound1 (haversine_distance lat1 lon1 lat2 lon2 * 1.3 / 1000 / speed * 60) ∧
    (5/3 ≤ haversine_distance lat1 lon1 lat2 lon2 →
      haversine_distance lat1 lon1 lat2 lon2 ≤
        ((fallback_eta lat1 lon1 lat2 lon2 speed).distance_meters : ℝ)) := by
  refine ⟨rfl, abs_pyRound_sub_le _, rfl, ?_⟩
  intro h
  have hlow := sub_half_le_pyRound_cast (haversine_distance lat1 lon1 lat2 lon2 * 1.3)
  have : (fallback_eta lat1 lon1 lat2 lon2 speed).distance_meters =
      pyRound (haversine_distance lat1 lon1 lat2 lon2 * 1.3) := rfl
  rw [this]
  have h13 : (1.3 : ℝ) = 13/10 := by norm_num
  rw [h13] at hlow
  linarith

theorem c7_fallback_buffered_witness :
    5/3 ≤ haversine_distance 0 0 0 180 ∧
    haversine_distance 0 0 0 180 ≤ ((fallback_eta 0 0 0 180 25).distance_meters : ℝ) := by
  have h53 : 5/3 ≤ haversine_distance 0 0 0 180 := by
    rw [haversine_antipodal]
    nlinarith [Real.pi_gt_three]
  exact ⟨h53, (c7_fallback_buffered 0 0 0 180 25).2.2.2 h53⟩

/-- C8 counterexample: 25 upcoming stops.  The multi-waypoint request has
26 waypoints, `get_multi_stop_route` truncates it to 25, a well-formed
reply then carries 24 legs, and the calculator returns 24 entries — not
one per input stop. -/
theorem c8_truncation_counterexample :
    (get_etas_to_multiple_stops
        (fun wps => some (List.replicate (wps.length - 1) ((0 : ℚ), (0 : ℚ))))
        ((0 : ℚ), (0 : ℚ))
        ((List.range 25).map (fun (i : ℕ) => { lon := (i : ℚ), lat := 0, stop_id := i }))).length = 24 ∧
    ((List.range 25).map
      (fun (i : ℕ) => ({ lon := (i : ℚ), lat := 0, stop_id := i } : StopLoc))).length = 25 := by
  decide

/-- C8 amended: with at most 24 upcoming stops and a well-formed reply
(one leg per waypoint gap, nonnegative leg distances and durations) the
multi-waypoint path returns one entry per input stop, in stop order, with
`eta_minutes` and `distance_meters` non-decreasing; the leg-by-leg
fallback path returns one entry per stop in stop order with both fields
non-decreasing, unconditionally. -/
theorem c8_batch_eta_monotone (api : List Waypoint → Option (List RawLeg))
    (bus : Waypoint) (stops : List StopLoc) (legs : List RawLeg)
    (hcount : stops.length ≤ 24)
    (hapi : api (bus :: stops.map (fun st => (st.lon, st.lat))) = some legs)
    (hlegs : legs.length = stops.length)
    (hnonneg : ∀ l ∈ legs, 0 ≤ l.1 ∧ 0 ≤ l.2) :
    ((get_etas_to_multiple_stops api bus stops).length = stops.length ∧
      (get_etas_to_multiple_stops api bus stops).map (fun e => e.stop_id) =
        stops.map (fun st => st.stop_id) ∧
      List.Chain'
        (fun a b : EtaEntry =>
          a.eta_minutes ≤ b.eta_minutes ∧ a.distance_meters ≤ b.distance_meters)
        (get_etas_to_multiple_stops api bus stops)) ∧
    (∀ (rawSpeed busLat busLon : ℝ) (gstops : List StopGeo),
      (routeEtaFallback rawSpeed busLat busLon gstops).length = gstops.length ∧
      (routeEtaFallback rawSpeed busLat busLon gstops).map (fun e => e.stop_id) =
        gstops.map (fun st => st.stop_id) ∧
      List.Chain'
        (fun a b : EtaEntryR =>
          a.eta_minutes ≤ b.eta_minutes ∧ a.distance_meters ≤ b.distance_meters)
        (routeEtaFallback rawSpeed busLat busLon gstops)) := by
  constructor
  · by_cases hstops : stops = []
    · subst hstops
      simp [get_etas_to_multiple_stops]
    · have hwplen : (bus :: stops.map (fun st => (st.lon, st.lat))).length =
          stops.length + 1 := by simp
      have h2 : ¬ (bus :: stops.map (fun st => (st.lon, st.lat))).length < 2 := by
        rw [hwplen]
        have : stops.length ≠ 0 := fun h => hstops (List.length_eq_zero.mp h)
        omega
      have h25 : ¬ (bus :: stops.map (fun st => (st.lon, st.lat))).length > 25 := by
        rw [hwplen]
        omega
      have hmsr : get_multi_stop_route api
          (bus :: stops.map (fun st => (st.lon, st.lat))) =
          some (processLegs 0 0 legs) := by
        simp only [get_multi_stop_route]
        rw [if_neg h2, if_neg h25, hapi]
      have hplen : (processLegs 0 0 legs).length = stops.length := by
        rw [processLegs_length legs 0 0, hlegs]
      have hpne : ¬ (processLegs 0 0 legs = []) := by
        intro h
        have := congrArg List.length h
        rw [hplen] at this
        exact hstops (List.length_eq_zero.mp this)
      have hetas : get_etas_to_multiple_stops api bus stops =
          pairEntries stops (processLegs 0 0 legs) := by
        simp only [get_etas_to_multiple_stops]
        rw [if_neg hstops, hmsr]
        show (if processLegs 0 0 legs = [] then []
          else pairEntries stops (processLegs 0 0 legs)) =
          pairEntries stops (processLegs 0 0 legs)
        rw [if_neg hpne]
      rw [hetas]
      refine ⟨?_, ?_, ?_⟩
      · rw [pairEntries_length, hplen, min_self]
      · exact pairEntries_ids stops _ (by rw [hplen])
      · exact pairEntries_chain stops _ (processLegs_chain legs 0 0 hnonneg)
  · intro rawSpeed busLat busLon gstops
    have hs := fallbackSpeed_pos rawSpeed
    refine ⟨routeEtaFallbackAux_length gstops _ _ _ _,
      routeEtaFallbackAux_ids gstops _ _ _ _,
      routeEtaFallbackAux_chain hs gstops _ _ _ _⟩

theorem c8_batch_eta_monotone_witness :
    (([⟨0, 0, 7⟩] : List StopLoc).length ≤ 24 ∧
      (fun _ : List Waypoint => some ([((5 : ℚ), (3 : ℚ))] : List RawLeg))
        (((0 : ℚ), (0 : ℚ)) :: ([⟨0, 0, 7⟩] : List StopLoc).map (fun st => (st.lon, st.lat))) =
        some [((5 : ℚ), (3 : ℚ))] ∧
      ([((5 : ℚ), (3 : ℚ))] : List RawLeg).length = ([⟨0, 0, 7⟩] : List StopLoc).length ∧
      ∀ l ∈ ([((5 : ℚ), (3 : ℚ))] : List RawLeg), 0 ≤ l.1 ∧ 0 ≤ l.2) ∧
    (get_etas_to_multiple_stops
        (fun _ : List Waypoint => some ([((5 : ℚ), (3 : ℚ))] : List RawLeg))
        ((0 : ℚ), (0 : ℚ)) ([⟨0, 0, 7⟩] : List StopLoc)).length =
      ([⟨0, 0, 7⟩] : List StopLoc).length :=
  ⟨⟨by decide, rfl, by decide, by decide⟩,
    (c8_batch_eta_monotone
      (fun _ : List Waypoint => some ([((5 : ℚ), (3 : ℚ))] : List RawLeg))
      ((0 : ℚ), (0 : ℚ)) [⟨0, 0, 7⟩] [((5 : ℚ), (3 : ℚ))]
      (by decide) rfl (by decide) (by decide)).1.1⟩

/-- C10: with an empty stop list the resolver does not fail and returns
the fixed default: `next_stop = 1`, `is_at_stop = false`, and null
distance and ETA. -/
theorem c10_empty_stop_list :
    (get_bus_position_on_route []).next_stop = 1 ∧
    (get_bus_position_on_route []).is_at_stop = false ∧
    (get_bus_position_on_route []).distance_to_next = none ∧
    (get_bus_position_on_route []).eta_to_next = none := by
  decide

end SmartBus
